import Mathlib

/-!
Verification development for the `m_ircv3_FILEHOST.cpp` InspIRCd module.

Strings from the C++ side are modelled as `List Char` where character-level
processing matters (message text scanning, filename extraction), and as
`String` where the code only concatenates and compares whole strings
(notices, tag names, configuration values).
-/

set_option maxRecDepth 4000

/-! ## Character and string utilities mirroring the std::string operations used -/

/-- ASCII lower-casing of one character, mirroring `::tolower` on ASCII input. -/
def toLowerCh (c : Char) : Char :=
  if 'A' ≤ c ∧ c ≤ 'Z' then Char.ofNat (c.toNat + 32) else c

/-- Lower-case a character list, mirroring `std::transform(..., ::tolower)`. -/
def lowerStr (s : List Char) : List Char := s.map toLowerCh

/-- First index at which `pat` occurs in `hay`, mirroring `std::string::find`;
`none` mirrors `std::string::npos`. -/
def strFind (hay pat : List Char) : Option Nat :=
  if pat.isPrefixOf hay then some 0
  else
    match hay with
    | [] => none
    | _ :: rest => (strFind rest pat).map (· + 1)

/-- Last index at which `pat` occurs in `hay`, mirroring `std::string::rfind`
restricted to full-pattern occurrences. -/
def strFindLast (hay pat : List Char) : Option Nat :=
  ((List.range (hay.length + 1)).filter (fun i => pat.isPrefixOf (hay.drop i))).getLast?

/-- Last index of the character `c` in `s`, mirroring `std::string::rfind(char)`. -/
def rfindChar (s : List Char) (c : Char) : Option Nat :=
  match s with
  | [] => none
  | a :: rest =>
    match rfindChar rest c with
    | some j => some (j + 1)
    | none => if a == c then some 0 else none

/-- Offset of the first element of `l` that lies in `set` (length of `l` if none),
the core of `std::string::find_first_of`. -/
def findFirstOfIn (l set : List Char) : Nat :=
  match l with
  | [] => 0
  | c :: rest => if set.contains c then 0 else findFirstOfIn rest set + 1

/-- First index `≥ start` of a character of `set` in `s`, mirroring
`std::string::find_first_of(set, start)`; yields `s.length` when absent
(the code replaces `npos` by the length before slicing). -/
def findFirstOf (s set : List Char) (start : Nat) : Nat :=
  start + findFirstOfIn (s.drop start) set

/-- Model of `s.substr(start, stop - start)` as used by `OnUserPreMessage`. -/
def substrFT (s : List Char) (start stop : Nat) : List Char :=
  (s.drop start).take (stop - start)

/-- The trailing-punctuation set `,.;:!?'"()[]{}` of `OnUserPreMessage`. -/
def punctuation : List Char :=
  [',', '.', ';', ':', '!', '?', '\x27', '\x22', '(', ')', '[', ']', '\x7b', '\x7d']

/-- Whether `c` is in the trailing-punctuation set. -/
def isPunct (c : Char) : Bool := punctuation.contains c

/-- Strip trailing punctuation, mirroring the
`while (!url.empty() && punctuation.find(url.back()) != npos) url.pop_back()` loop. -/
def rstripPunct (l : List Char) : List Char :=
  ((l.reverse).dropWhile isPunct).reverse

/-- The delimiter set `" \r\n"` used by `find_first_of` in `OnUserPreMessage`. -/
def msgDelims : List Char := [' ', '\r', '\n']

/-- Whether `c` is one of the three URL-terminating delimiters. -/
def isMsgDelim (c : Char) : Bool := msgDelims.contains c

/-! ## Token Service (JWT wrapper of the module)

Modelled from the spec: the jwt-cpp library that backs `JWT::Generate` /
`JWT::Verify` / `JWT::GetUsername` is an external dependency whose body is not
part of this repository.  Following §3/§4.1 of the spec, a token carries
subject, issuer, issuedAt and expiresAt plus a signature that is a
deterministic function of those fields and the secret; the keyed MAC is
modelled as a perfect (injective) MAC, i.e. the record of its inputs.
Verification recomputes and compares the MAC, checks the issuer demanded by
the source via `.with_issuer(issuer)`, and fails when `now > expiresAt`
(spec §4.1: ExpiredToken) or when the token cannot be parsed (MalformedToken).
-/

/-- A perfect-MAC signature value: the record of the signed fields and secret. -/
structure Sig where
  subject : String
  issuer : String
  issuedAt : Nat
  expiresAt : Nat
  secret : String
deriving DecidableEq, Repr

/-- Modelled from the spec: the keyed MAC over the token fields (perfect MAC). -/
def macSign (subject issuer : String) (issuedAt expiresAt : Nat) (secret : String) : Sig :=
  ⟨subject, issuer, issuedAt, expiresAt, secret⟩

/-- A parsed token: the claimed fields plus the embedded signature. -/
structure Token where
  subject : String
  issuer : String
  issuedAt : Nat
  expiresAt : Nat
  signature : Sig
deriving DecidableEq, Repr

/-- A token string on the wire: either it parses to a `Token` or it is malformed
(`jwt::decode` throws). -/
inductive TokenWire where
  | malformed
  | wellFormed (t : Token)
deriving DecidableEq, Repr

namespace JWT

/-- Model of `JWT::Generate(username, secret, issuer, expiry)` at current time `now`:
issuer, subject, issuedAt = now, expiresAt = expiry, signed with the secret. -/
def Generate (username secret issuer : String) (expiry now : Nat) : TokenWire :=
  .wellFormed ⟨username, issuer, now, expiry, macSign username issuer now expiry secret⟩

/-- Model of `JWT::Verify(token, secret, issuer)` at current time `now`.
Modelled from the spec: the jwt-cpp verifier configured by the source with
`allow_algorithm(hs256{secret})` and `with_issuer(issuer)`; returns false on a
malformed token, an issuer mismatch, a signature that does not recompute with
`secret`, or an expired token (`now > expiresAt`). -/
def Verify (tw : TokenWire) (secret issuer : String) (now : Nat) : Bool :=
  match tw with
  | .malformed => false
  | .wellFormed t =>
    decide (t.issuer = issuer ∧
      t.signature = macSign t.subject t.issuer t.issuedAt t.expiresAt secret ∧
      now ≤ t.expiresAt)

/-- Model of `JWT::GetUsername(token)`: the subject claim, or `""` when decoding throws. -/
def GetUsername (tw : TokenWire) : String :=
  match tw with
  | .malformed => ""
  | .wellFormed t => t.subject

/-- Model of `JWT::GetIssuer(token)`: the issuer claim, or `""` when decoding throws. -/
def GetIssuer (tw : TokenWire) : String :=
  match tw with
  | .malformed => ""
  | .wellFormed t => t.issuer

end JWT

/-! ## ModResult and the FileHostTag provider -/

/-- The InspIRCd `ModResult` values used by the module. -/
inductive ModResult where
  | MOD_RES_PASSTHRU
  | MOD_RES_DENY
  | MOD_RES_ALLOW
deriving DecidableEq, Repr

namespace FileHostTag

/-- Model of `FileHostTag::OnProcessTag(user, tagname, tagvalue)`: passthrough for other
tag names; deny a `reverse.im/filehost` tag from a local user (`IS_LOCAL`),
allow it otherwise.  `isLocalUser` models `IS_LOCAL(user) != nullptr`; the tag
value is never inspected. -/
def OnProcessTag (isLocalUser : Bool) (tagname tagvalue : String) : ModResult :=
  if tagname ≠ "reverse.im/filehost" then .MOD_RES_PASSTHRU
  else if isLocalUser then .MOD_RES_DENY
  else .MOD_RES_ALLOW

end FileHostTag

/-! ## File type classification -/

/-- The `FileType` enumeration of the module. -/
inductive FileType where
  | FILE_UNKNOWN
  | FILE_IMAGE
  | FILE_TEXT
  | FILE_BINARY
  | FILE_ARCHIVE
  | FILE_DOCUMENT
deriving DecidableEq, Repr

/-- Model of `ModuleFileHost::GetFileTypeFromExtension(filename)`: extension after the
last dot, `FILE_UNKNOWN` when there is none or it is empty, else a lower-cased
lookup in the fixed table, falling back to `FILE_BINARY`. -/
def GetFileTypeFromExtension (filename : List Char) : FileType :=
  let ext : List Char :=
    match rfindChar filename '.' with
    | none => []
    | some dot_pos => filename.drop (dot_pos + 1)
  if ext.isEmpty then .FILE_UNKNOWN
  else
    let ext := lowerStr ext
    if ext = "png".toList ∨ ext = "jpg".toList ∨ ext = "jpeg".toList ∨
        ext = "gif".toList ∨ ext = "svg".toList then .FILE_IMAGE
    else if ext = "txt".toList ∨ ext = "html".toList ∨ ext = "htm".toList ∨
        ext = "css".toList ∨ ext = "js".toList then .FILE_TEXT
    else if ext = "pdf".toList ∨ ext = "doc".toList ∨ ext = "docx".toList then .FILE_DOCUMENT
    else if ext = "zip".toList ∨ ext = "tar".toList ∨ ext = "gz".toList ∨
        ext = "rar".toList then .FILE_ARCHIVE
    else .FILE_BINARY

/-- The inline extension-to-type chain of `ModuleFileHost::OnUserPreMessage`
(lines 440-460): the optional `type` value written into the attached metadata.
When the filename has no dot, or the lower-cased extension matches none of the
three listed groups, no type field is emitted at all. -/
def inlineTypeOf (filename : List Char) : Option String :=
  match rfindChar filename '.' with
  | none => none
  | some dot_pos =>
    let ext := lowerStr (filename.drop (dot_pos + 1))
    if ext = "png".toList ∨ ext = "jpg".toList ∨ ext = "jpeg".toList ∨
        ext = "gif".toList ∨ ext = "svg".toList then some "image"
    else if ext = "txt".toList ∨ ext = "md".toList ∨ ext = "html".toList ∨
        ext = "htm".toList then some "text"
    else if ext = "pdf".toList ∨ ext = "doc".toList ∨ ext = "docx".toList then some "document"
    else none

/-- Model of `ModuleFileHost::GetFilenameFromURL(url)`: empty unless the URL starts with
`<publicURL>/files/`; otherwise the remainder with any `?query` removed. -/
def GetFilenameFromURL (public_url url : List Char) : List Char :=
  if strFind url (public_url ++ "/files/".toList) ≠ some 0 then []
  else
    let filename := url.drop (public_url ++ "/files/".toList).length
    match strFind filename ['?'] with
    | none => filename
    | some qmark => filename.take qmark

/-! ## The FILEHOST command -/

/-- The InspIRCd `CmdResult` values used by `HandleLocal`. -/
inductive CmdResult where
  | SUCCESS
  | FAILURE
  | INVALID
deriving DecidableEq, Repr

/-- The configuration state the command and module read (`ReadConfig`). -/
structure FilehostConfig where
  public_url : String
  jwt_secret : String
  jwt_issuer : String
  token_expiry : Nat
  filehost_auth_msg : String
deriving Repr

/-- A local user as seen by `HandleLocal`: nickname plus the result of
`GetAccountName` (`none` models a null pointer or an absent account API). -/
structure LocalUserRec where
  nick : String
  accountName : Option String
deriving Repr

/-- The observable outcome of one `HandleLocal` invocation: the command result,
the notices written to the user in order, and the token minted by
`JWT::Generate` (`none` when the generate call is never reached). -/
structure CommandOutcome where
  result : CmdResult
  notices : List String
  minted : Option TokenWire
deriving Repr

/-- Rendering of a token into the textual upload URL; the base64url JWT
serialisation is abstracted to an injective-enough display form, used only
inside notice strings that no claim inspects for token content. -/
def tokenString (tw : TokenWire) : String :=
  match tw with
  | .malformed => ""
  | .wellFormed t => t.subject ++ ":" ++ t.issuer ++ ":" ++ toString t.expiresAt

/-- Model of `CommandFilehost::HandleLocal(user, parameters)` at current time `now`.
Faithful to the source order: account check first (null or empty account name
denies every invocation), then the token is generated with `user->nick` as
subject, then the parameter dispatch. -/
def HandleLocal (cfg : FilehostConfig) (user : LocalUserRec) (parameters : List String)
    (now : Nat) : CommandOutcome :=
  let deny : CommandOutcome :=
    { result := .FAILURE
      notices := ["*** You must be logged in to use file hosting. " ++ cfg.filehost_auth_msg]
      minted := none }
  match user.accountName with
  | none => deny
  | some accountname =>
    if accountname.isEmpty then deny
    else
      let expiry := now + cfg.token_expiry
      let token := JWT.Generate user.nick cfg.jwt_secret cfg.jwt_issuer expiry now
      let auth_url := cfg.public_url ++ "/upload?token=" ++ tokenString token
      match parameters with
      | [] =>
        { result := .SUCCESS
          notices :=
            ["*** FILEHOST: Upload files using " ++ auth_url,
             "*** FILEHOST: You\x27re already authenticated through IRC! No need to log in again.",
             "*** FILEHOST: Share files with others using " ++ cfg.public_url ++ "/files/filename",
             "*** FILEHOST: Your logged in account: " ++ accountname,
             "*** FILEHOST: Your upload link is valid for " ++ toString (cfg.token_expiry / 60) ++
               " minutes"]
          minted := some token }
      | p0 :: _ =>
        if p0 = "info" then
          { result := .SUCCESS
            notices :=
              ["*** FILEHOST: Service provided by " ++ cfg.public_url,
               "*** FILEHOST: Maximum file size: 16MB",
               "*** FILEHOST: Allowed file types: txt, pdf, png, jpg, jpeg, gif, html, htm, css, js, svg"]
            minted := some token }
        else
          { result := .SUCCESS
            notices := ["*** FILEHOST: Unknown parameter. Use /FILEHOST without parameters for help."]
            minted := some token }

/-! ## OnUserPreMessage: URL detection, metadata tagging, SSL gate -/

/-- The `<publicURL>/files/` search pattern of `OnUserPreMessage`. -/
def filesPat (public_url : List Char) : List Char := public_url ++ "/files/".toList

/-- The notice sent when the SSL requirement denies a message. -/
def sslNotice : String :=
  "You cannot send FILEHOST URLs over a non-SSL connection. Please use an SSL connection."

/-- The URL slice of `OnUserPreMessage` lines 411-422: substring from
`start_pos` to the first of `" \r\n"` (or end of text), then trailing
punctuation stripped. -/
def detectURL (text : List Char) (start_pos : Nat) : List Char :=
  rstripPunct (substrFT text start_pos (findFirstOf text msgDelims start_pos))

/-- The detection step of `OnUserPreMessage` lines 402-429: the first
occurrence of `<publicURL>/files/` yields the cleaned URL and the filename
(the URL minus the fixed-length prefix when the pattern occurs in the URL,
empty otherwise - the query string is NOT removed on this path). -/
def detectedTag (public_url text : List Char) : Option (List Char × List Char) :=
  match strFind text (filesPat public_url) with
  | none => none
  | some start_pos =>
    let url := detectURL text start_pos
    let filename :=
      if (strFind url (filesPat public_url)).isSome then url.drop (filesPat public_url).length
      else []
    some (url, filename)

/-- The metadata JSON string built inline by `OnUserPreMessage` lines 432-464:
url always; filename and the optional type only when the filename is
non-empty. -/
def inlineMetadata (url filename : List Char) : List Char :=
  let metadata := "\x7b\x22url\x22:\x22".toList ++ url ++ "\x22".toList
  let metadata :=
    if filename.isEmpty then metadata
    else
      metadata ++ ",\x22filename\x22:\x22".toList ++ filename ++ "\x22".toList ++
        (match inlineTypeOf filename with
         | some t => (",\x22type\x22:\x22" ++ t ++ "\x22").toList
         | none => [])
  metadata ++ "\x7d".toList

/-- Model of `std::map::emplace` on the outgoing tag map: inserts only when the key is
not already present. -/
def emplaceTag (tags : List (String × List Char)) (k : String) (v : List Char) :
    List (String × List Char) :=
  if tags.any (fun p => p.1 == k) then tags else tags ++ [(k, v)]

/-- The per-connection state `OnUserPreMessage` reads besides the text:
the `requiressl` config flag, whether the sender is local (`IS_LOCAL`), and
whether its connection has an IO hook (`eh.GetIOHook()`, i.e. TLS). -/
structure PreMsgState where
  requireSsl : Bool
  isLocal : Bool
  hasIOHook : Bool
deriving DecidableEq, Repr

/-- The observable outcome of `ModuleFileHost::OnUserPreMessage`: the hook
result, the outgoing tag map after the call, the notices written to the
sender, and the URL broadcast by `SendTagMsg` (`none` when no broadcast). -/
structure PreMsgOutcome where
  result : ModResult
  tags_out : List (String × List Char)
  notices : List String
  broadcast : Option (List Char)
deriving DecidableEq, Repr

/-- Model of `ModuleFileHost::OnUserPreMessage(user, target, details)`.  SSL gate first:
with `requiressl`, a local sender without an IO hook whose text contains the
public URL anywhere is denied with a notice.  Otherwise, if the text contains
`<publicURL>/files/`, the URL and filename are extracted, the metadata tag is
emplaced into `details.tags_out`, and a TAGMSG broadcast is sent; the hook
always returns passthrough on this path. -/
def OnUserPreMessage (st : PreMsgState) (public_url text : List Char)
    (tags0 : List (String × List Char)) : PreMsgOutcome :=
  if st.requireSsl && st.isLocal && !st.hasIOHook && (strFind text public_url).isSome then
    { result := .MOD_RES_DENY, tags_out := tags0, notices := [sslNotice], broadcast := none }
  else
    match strFind text (filesPat public_url) with
    | none =>
      { result := .MOD_RES_PASSTHRU, tags_out := tags0, notices := [], broadcast := none }
    | some start_pos =>
      let url := detectURL text start_pos
      let filename :=
        if (strFind url (filesPat public_url)).isSome then url.drop (filesPat public_url).length
        else []
      let metadata := inlineMetadata url filename
      { result := .MOD_RES_PASSTHRU
        tags_out := emplaceTag tags0 "reverse.im/filehost" metadata
        notices := []
        broadcast := some url }

/-! ## Spec-side comparison definitions (for refinement claims) -/

/-- Whitespace as the spec means it in "maximal contiguous non-whitespace
token": space, tab, carriage return, line feed. -/
def isWhitespaceCh (c : Char) : Bool :=
  c == ' ' || c == '\t' || c == '\r' || c == '\n'

/-- Written from the words of claim C7 (spec §4.4): the detected URL is the
maximal contiguous non-whitespace token at the first occurrence of
`<publicURL>/files/` with trailing punctuation stripped, and the filename is
everything after the LAST `/files/` segment of that URL with any query string
discarded. -/
def specC7Detected (public_url text : List Char) : Option (List Char × List Char) :=
  match strFind text (filesPat public_url) with
  | none => none
  | some start_pos =>
    let url := rstripPunct ((text.drop start_pos).takeWhile (fun c => !isWhitespaceCh c))
    let filename :=
      match strFindLast url "/files/".toList with
      | none => []
      | some p => ((url.drop (p + "/files/".toList.length)).takeWhile (fun c => !(c == '?')))
    some (url, filename)

/-- The amended form of claim C7: the detected URL is the contiguous token
from the occurrence up to the first space, CR or LF (tab does not terminate
it), trailing punctuation stripped; the filename is everything after the
first `<publicURL>/files/` prefix, with the query string retained. -/
def amendedC7Detected (public_url text : List Char) : Option (List Char × List Char) :=
  match strFind text (filesPat public_url) with
  | none => none
  | some start_pos =>
    let url := rstripPunct ((text.drop start_pos).takeWhile (fun c => !isMsgDelim c))
    some (url, url.drop (filesPat public_url).length)

/-- The amended form of claim C6: the type recorded in the attached metadata,
as a membership lookup in the three extension groups the inline chain of
`OnUserPreMessage` actually recognises; all other extensions (css, js,
archives, anything else) and dotless names record no type at all. -/
def amendedInlineType (filename : List Char) : Option String :=
  match rfindChar filename '.' with
  | none => none
  | some dot_pos =>
    let ext := lowerStr (filename.drop (dot_pos + 1))
    if ext ∈ ["png".toList, "jpg".toList, "jpeg".toList, "gif".toList, "svg".toList] then
      some "image"
    else if ext ∈ ["txt".toList, "md".toList, "html".toList, "htm".toList] then some "text"
    else if ext ∈ ["pdf".toList, "doc".toList, "docx".toList] then some "document"
    else none

/-! ## Helper lemmas about the string utilities -/

/-- A successful `strFind` really is an occurrence. -/
theorem strFind_isPrefixOf_drop (pat : List Char) :
    ∀ (hay : List Char) (i : Nat), strFind hay pat = some i →
      pat.isPrefixOf (hay.drop i) = true := by
  intro hay
  induction hay with
  | nil =>
    intro i h
    rw [strFind] at h
    by_cases hp : pat.isPrefixOf ([] : List Char) = true
    · simp only [hp, if_true, Option.some.injEq] at h
      subst h
      simpa using hp
    · simp [hp] at h
  | cons c rest ih =>
    intro i h
    rw [strFind] at h
    by_cases hp : pat.isPrefixOf (c :: rest) = true
    · simp only [hp, if_true, Option.some.injEq] at h
      subst h
      simpa using hp
    · simp only [hp, if_false, Bool.false_eq_true] at h
      cases hr : strFind rest pat with
      | none => rw [hr] at h; simp at h
      | some j =>
        rw [hr] at h
        simp only [Option.map_some', Option.some.injEq] at h
        subst h
        simpa [List.drop_succ_cons] using ih j hr

/-- A pattern that is a prefix is found at index 0. -/
theorem strFind_of_isPrefixOf {hay pat : List Char} (h : pat.isPrefixOf hay = true) :
    strFind hay pat = some 0 := by
  rw [strFind.eq_def]
  simp [h]

/-- An `isPrefixOf` fact decomposed into an append. -/
theorem exists_of_isPrefixOf {pat l : List Char} (h : pat.isPrefixOf l = true) :
    ∃ rest, l = pat ++ rest := by
  obtain ⟨t, ht⟩ := List.isPrefixOf_iff_prefix.mp h
  exact ⟨t, ht.symm⟩

/-- A list is a prefix of itself followed by anything. -/
theorem isPrefixOf_append_self (pat x : List Char) : pat.isPrefixOf (pat ++ x) = true :=
  List.isPrefixOf_iff_prefix.mpr (List.prefix_append pat x)

/-- Taking up to the first delimiter is `takeWhile` on the complement. -/
theorem findFirstOfIn_take (set : List Char) :
    ∀ l : List Char, l.take (findFirstOfIn l set) = l.takeWhile (fun c => !(set.contains c)) := by
  intro l
  induction l with
  | nil => rfl
  | cons c rest ih =>
    rw [findFirstOfIn, List.takeWhile_cons]
    cases hc : set.contains c with
    | true => simp
    | false => simp [ih]

/-- Stripping trailing punctuation from a string that starts with a block
ending in a non-punctuation character leaves that block intact. -/
theorem rstripPunct_snoc_append (a b : List Char) (c : Char) (hc : isPunct c = false) :
    rstripPunct ((a ++ [c]) ++ b) = (a ++ [c]) ++ rstripPunct b := by
  unfold rstripPunct
  rw [List.reverse_append, List.dropWhile_append]
  by_cases he : (b.reverse.dropWhile isPunct).isEmpty = true
  · rw [if_pos he]
    rw [List.isEmpty_iff.mp he]
    have : (a ++ [c]).reverse = c :: a.reverse := by simp
    rw [this, List.dropWhile_cons, if_neg (by simp [hc])]
    simp
  · rw [if_neg he]
    simp

/-- The `<publicURL>/files/` pattern ends in `/`, so trailing-punctuation
stripping never eats into it. -/
theorem rstripPunct_filesPat (pu b : List Char) :
    rstripPunct (filesPat pu ++ b) = filesPat pu ++ rstripPunct b := by
  have hsl : filesPat pu = (pu ++ "/files".toList) ++ ['/'] := by
    rw [filesPat]
    have : "/files/".toList = "/files".toList ++ ['/'] := by decide
    rw [this, ← List.append_assoc]
  rw [hsl]
  exact rstripPunct_snoc_append _ _ _ (by decide)

/-- The URL slice of the message handler equals the takeWhile form. -/
theorem detectURL_eq_takeWhile (text : List Char) (s : Nat) :
    detectURL text s = rstripPunct ((text.drop s).takeWhile (fun c => !isMsgDelim c)) := by
  rw [detectURL, findFirstOf, substrFT, Nat.add_sub_cancel_left, findFirstOfIn_take]
  have hfun : (fun c : Char => !(msgDelims.contains c)) = (fun c => !isMsgDelim c) := rfl
  rw [hfun]

/-! ## Shared concrete example values -/

/-- Example configuration used by concrete evaluations. -/
def cfgEx : FilehostConfig :=
  { public_url := "http://h", jwt_secret := "sec", jwt_issuer := "ISS",
    token_expiry := 3600, filehost_auth_msg := "hint" }

/-! ## Claim theorems -/

/-- C1: for every subject `s`, secret `k`, issuer `i` and expiry `e` with the
current time strictly before `e`, verifying the token produced by
`JWT::Generate(s, k, i, e)` with the same secret and issuer returns valid, and
`JWT::GetUsername` on that token returns `s`. -/
theorem jwt_roundtrip_valid (s k i : String) (e now : Nat) (h : now < e) :
    JWT.Verify (JWT.Generate s k i e now) k i now = true ∧
    JWT.GetUsername (JWT.Generate s k i e now) = s := by
  refine ⟨?_, rfl⟩
  simp [JWT.Generate, JWT.Verify, Nat.le_of_lt h]

/-- Witness for C1 at a concrete input. -/
theorem jwt_roundtrip_valid_witness :
    (0 : Nat) < 5 ∧
    (JWT.Verify (JWT.Generate "alice" "k" "ISS" 5 0) "k" "ISS" 0 = true ∧
      JWT.GetUsername (JWT.Generate "alice" "k" "ISS" 5 0) = "alice") :=
  ⟨by decide, jwt_roundtrip_valid "alice" "k" "ISS" 5 0 (by decide)⟩

/-- C2 counterexample: a well-signed token verified exactly at its expiry time
(`now = expiresAt`, hence `now >= expiresAt`) still verifies, so "for all
tokens where now >= expiresAt it fails" is false; the code fails only for
`now > expiresAt`. -/
theorem jwt_verify_expiry_boundary_cex :
    JWT.Verify (JWT.Generate "alice" "k" "ISS" 5 0) "k" "ISS" 5 = true := by decide

/-- C2 amended: `JWT::Verify` returns true iff the token parses, its issuer
equals the expected issuer, its signature recomputes with the secret, and
`now <= expiresAt`; it returns false exactly on malformed tokens, issuer
mismatch, signature mismatch, or `now > expiresAt`. -/
theorem jwt_verify_amended (tw : TokenWire) (secret issuer : String) (now : Nat) :
    JWT.Verify tw secret issuer now = true ↔
      ∃ t, tw = .wellFormed t ∧ t.issuer = issuer ∧
        t.signature = macSign t.subject t.issuer t.issuedAt t.expiresAt secret ∧
        now ≤ t.expiresAt := by
  cases tw with
  | malformed => simp [JWT.Verify]
  | wellFormed t => simp [JWT.Verify]

/-- C3 counterexample: a user whose nickname differs from the resolved account
identity gets a token whose subject is the nickname, not the account name. -/
theorem filehost_subject_is_nick_cex :
    (HandleLocal cfgEx { nick := "alice", accountName := some "bob" } [] 0).minted =
      some (JWT.Generate "alice" "sec" "ISS" 3600 0) ∧
    JWT.GetUsername (JWT.Generate "alice" "sec" "ISS" 3600 0) = "alice" ∧
    ("alice" : String) ≠ "bob" := by decide

/-- C3 amended: for every local user with a non-empty resolved account
identity invoking FILEHOST with no arguments, the minted token is
`Generate(nick, secret, issuer, now + configuredTTL)`: its embedded subject is
the caller's nickname (not the resolved account identity). -/
theorem filehost_subject_is_nick (cfg : FilehostConfig) (user : LocalUserRec) (now : Nat)
    (a : String) (h1 : user.accountName = some a) (h2 : a.isEmpty = false) :
    (HandleLocal cfg user [] now).minted =
      some (JWT.Generate user.nick cfg.jwt_secret cfg.jwt_issuer (now + cfg.token_expiry) now) ∧
    JWT.GetUsername
        (JWT.Generate user.nick cfg.jwt_secret cfg.jwt_issuer (now + cfg.token_expiry) now) =
      user.nick := by
  refine ⟨?_, rfl⟩
  simp [HandleLocal, h1, h2]

/-- Witness for the amended C3 at a concrete input. -/
theorem filehost_subject_is_nick_witness :
    (LocalUserRec.mk "alice" (some "bob")).accountName = some "bob" ∧
    ("bob" : String).isEmpty = false ∧
    ((HandleLocal cfgEx (LocalUserRec.mk "alice" (some "bob")) [] 7).minted =
        some (JWT.Generate "alice" cfgEx.jwt_secret cfgEx.jwt_issuer (7 + cfgEx.token_expiry) 7) ∧
      JWT.GetUsername
          (JWT.Generate "alice" cfgEx.jwt_secret cfgEx.jwt_issuer (7 + cfgEx.token_expiry) 7) =
        "alice") :=
  ⟨rfl, by decide, filehost_subject_is_nick cfgEx _ 7 "bob" rfl (by decide)⟩

/-- C4: a local user whose account lookup yields no identity or an empty
identity is denied with a notice carrying the configured authentication hint,
no token is minted, and the command fails. -/
theorem filehost_unauthenticated_denied (cfg : FilehostConfig) (user : LocalUserRec)
    (parameters : List String) (now : Nat)
    (h : user.accountName = none ∨ user.accountName = some "") :
    HandleLocal cfg user parameters now =
      { result := .FAILURE
        notices := ["*** You must be logged in to use file hosting. " ++ cfg.filehost_auth_msg]
        minted := none } := by
  have he : ("" : String).isEmpty = true := rfl
  rcases h with h | h <;> simp [HandleLocal, h, he]

/-- Witness for C4 at a concrete input. -/
theorem filehost_unauthenticated_denied_witness :
    ((LocalUserRec.mk "n" none).accountName = none ∨
      (LocalUserRec.mk "n" none).accountName = some "") ∧
    HandleLocal cfgEx (LocalUserRec.mk "n" none) [] 0 =
      { result := .FAILURE
        notices := ["*** You must be logged in to use file hosting. " ++ cfgEx.filehost_auth_msg]
        minted := none } :=
  ⟨Or.inl rfl, filehost_unauthenticated_denied cfgEx _ [] 0 (Or.inl rfl)⟩

/-- C5: a client-supplied `reverse.im/filehost` tag from a locally connected
user is always denied by the tag provider, and the same tag from a non-local
origin is always allowed. -/
theorem filehost_tag_forgery_prevention :
    (∀ tagvalue, FileHostTag.OnProcessTag true "reverse.im/filehost" tagvalue =
      .MOD_RES_DENY) ∧
    (∀ tagvalue, FileHostTag.OnProcessTag false "reverse.im/filehost" tagvalue =
      .MOD_RES_ALLOW) :=
  ⟨fun _ => by simp [FileHostTag.OnProcessTag], fun _ => by simp [FileHostTag.OnProcessTag]⟩

/-- C6 counterexample: for `a.css` the claim's table gives `text` (and the
separate helper `GetFileTypeFromExtension` agrees), but the tag attached to
the outbound message records no type field at all - the inline chain of
`OnUserPreMessage` only knows image/text/document groups and omits css. -/
theorem filehost_inline_type_css_cex :
    (OnUserPreMessage ⟨false, false, false⟩ "u".toList "u/files/a.css x".toList []).tags_out =
      [("reverse.im/filehost",
        "\x7b\x22url\x22:\x22u/files/a.css\x22,\x22filename\x22:\x22a.css\x22\x7d".toList)] ∧
    inlineTypeOf "a.css".toList = none ∧
    GetFileTypeFromExtension "a.css".toList = .FILE_TEXT := by decide

/-- C6 amended: the type recorded in the metadata tag attached to the outbound
message follows the inline table of `OnUserPreMessage`: png/jpg/jpeg/gif/svg
-> image; txt/md/html/htm -> text; pdf/doc/docx -> document; every other
extension (including css, js, zip, tar, gz, rar) and every dotless filename
records no type field at all; in particular `pic.png` classifies as image. -/
theorem filehost_inline_type_table (filename : List Char) :
    inlineTypeOf filename = amendedInlineType filename := by
  unfold inlineTypeOf amendedInlineType
  cases rfindChar filename '.' with
  | none => rfl
  | some dot_pos => simp [List.mem_cons]

/-- C8 counterexample: with `requiressl` set, a plaintext local sender whose
text contains the public URL but no `<publicURL>/files/` occurrence is denied,
not passed through unchanged. -/
theorem filehost_passthrough_cex :
    strFind "see http://h now".toList (filesPat "http://h".toList) = none ∧
    (OnUserPreMessage ⟨true, true, false⟩ "http://h".toList "see http://h now".toList
        []).result = .MOD_RES_DENY := by decide

/-- C8 amended: unless the SSL gate denies the message (requiressl with a
local plaintext sender and the public URL in the text), every outbound
message whose text does not contain `<publicURL>/files/` passes through
unchanged: passthrough result, identical tag map, no notice, no broadcast. -/
theorem filehost_passthrough_amended (st : PreMsgState) (public_url text : List Char)
    (tags0 : List (String × List Char))
    (h1 : strFind text (filesPat public_url) = none)
    (h2 : (st.requireSsl && st.isLocal && !st.hasIOHook &&
      (strFind text public_url).isSome) = false) :
    OnUserPreMessage st public_url text tags0 =
      { result := .MOD_RES_PASSTHRU, tags_out := tags0, notices := [], broadcast := none } := by
  unfold OnUserPreMessage
  rw [h2, h1]
  simp

/-- Witness for the amended C8 at a concrete input. -/
theorem filehost_passthrough_amended_witness :
    strFind "hello there".toList (filesPat "http://h".toList) = none ∧
    ((PreMsgState.mk true true false).requireSsl && (PreMsgState.mk true true false).isLocal &&
      !(PreMsgState.mk true true false).hasIOHook &&
      (strFind "hello there".toList "http://h".toList).isSome) = false ∧
    OnUserPreMessage (PreMsgState.mk true true false) "http://h".toList "hello there".toList
        [] =
      { result := .MOD_RES_PASSTHRU, tags_out := [], notices := [], broadcast := none } :=
  ⟨by decide, by decide,
    filehost_passthrough_amended _ _ _ [] (by decide) (by decide)⟩

/-- C9 counterexample: an unauthenticated caller invoking `FILEHOST info`
does not receive the info reply; the account gate runs first, the command
fails and replies with the denial notice. -/
theorem filehost_info_requires_identity_cex :
    (HandleLocal cfgEx (LocalUserRec.mk "n" none) ["info"] 0).result = .FAILURE ∧
    (HandleLocal cfgEx (LocalUserRec.mk "n" none) ["info"] 0).notices =
      ["*** You must be logged in to use file hosting. hint"] := by decide

/-- C9 amended: for every local user WITH a non-empty resolved identity,
invoking FILEHOST with argument `info` replies with the static notice listing
the size limit and accepted extensions and completes successfully; an
unauthenticated caller is denied instead (the identity gate precedes the
`info` branch). -/
theorem filehost_info_reply (cfg : FilehostConfig) (user : LocalUserRec) (now : Nat)
    (a : String) (h1 : user.accountName = some a) (h2 : a.isEmpty = false) :
    (HandleLocal cfg user ["info"] now).result = .SUCCESS ∧
    (HandleLocal cfg user ["info"] now).notices =
      ["*** FILEHOST: Service provided by " ++ cfg.public_url,
       "*** FILEHOST: Maximum file size: 16MB",
       "*** FILEHOST: Allowed file types: txt, pdf, png, jpg, jpeg, gif, html, htm, css, js, svg"] := by
  constructor <;> simp [HandleLocal, h1, h2]

/-- Witness for the amended C9 at a concrete input. -/
theorem filehost_info_reply_witness :
    (LocalUserRec.mk "n" (some "acct")).accountName = some "acct" ∧
    ("acct" : String).isEmpty = false ∧
    ((HandleLocal cfgEx (LocalUserRec.mk "n" (some "acct")) ["info"] 0).result = .SUCCESS ∧
      (HandleLocal cfgEx (LocalUserRec.mk "n" (some "acct")) ["info"] 0).notices =
        ["*** FILEHOST: Service provided by " ++ cfgEx.public_url,
         "*** FILEHOST: Maximum file size: 16MB",
         "*** FILEHOST: Allowed file types: txt, pdf, png, jpg, jpeg, gif, html, htm, css, js, svg"]) :=
  ⟨rfl, by decide, filehost_info_reply cfgEx _ 0 "acct" rfl (by decide)⟩

/-- C10: with `requiressl` enabled, every outbound message from a local user
on a connection without an IO hook whose text contains the configured public
URL anywhere is denied before delivery, the sender gets the SSL notice, and
no tag is attached or broadcast. -/
theorem filehost_ssl_gate (st : PreMsgState) (public_url text : List Char)
    (tags0 : List (String × List Char)) (h1 : st.requireSsl = true) (h2 : st.isLocal = true)
    (h3 : st.hasIOHook = false) (h4 : (strFind text public_url).isSome = true) :
    OnUserPreMessage st public_url text tags0 =
      { result := .MOD_RES_DENY, tags_out := tags0, notices := [sslNotice],
        broadcast := none } := by
  unfold OnUserPreMessage
  rw [h1, h2, h3, h4]
  simp

/-- Witness for C10 at a concrete input. -/
theorem filehost_ssl_gate_witness :
    (PreMsgState.mk true true false).requireSsl = true ∧
    (PreMsgState.mk true true false).isLocal = true ∧
    (PreMsgState.mk true true false).hasIOHook = false ∧
    (strFind "get http://h/x".toList "http://h".toList).isSome = true ∧
    OnUserPreMessage (PreMsgState.mk true true false) "http://h".toList
        "get http://h/x".toList [] =
      { result := .MOD_RES_DENY, tags_out := [], notices := [sslNotice], broadcast := none } :=
  ⟨rfl, rfl, rfl, by decide,
    filehost_ssl_gate _ _ _ [] rfl rfl rfl (by decide)⟩

/-- C7 counterexample: with public URL `http://h` and message
`see http://h/files/a.png?x=1 ok`, the filename placed in the attached tag is
`a.png?x=1` - the query string is NOT discarded on the attach path - while
the claim's extraction (query discarded after the last `/files/`) yields
`a.png`. -/
theorem filehost_url_extraction_cex :
    detectedTag "http://h".toList "see http://h/files/a.png?x=1 ok".toList =
      some ("http://h/files/a.png?x=1".toList, "a.png?x=1".toList) ∧
    specC7Detected "http://h".toList "see http://h/files/a.png?x=1 ok".toList =
      some ("http://h/files/a.png?x=1".toList, "a.png".toList) ∧
    "a.png?x=1".toList ≠ "a.png".toList := by decide

/-- C7 amended: provided the configured public URL contains no space, CR or
LF, the detected URL is the contiguous token starting at the first
`<publicURL>/files/` occurrence extending to the first space, CR or LF (not
every whitespace character), with trailing punctuation stripped; the filename
placed in the attached tag is everything after the FIRST `<publicURL>/files/`
prefix of that URL, with any query string retained. -/
theorem filehost_url_extraction_amended (public_url text : List Char)
    (hpu : ∀ c ∈ public_url, isMsgDelim c = false) :
    detectedTag public_url text = amendedC7Detected public_url text := by
  unfold detectedTag amendedC7Detected
  cases hf : strFind text (filesPat public_url) with
  | none => rfl
  | some s =>
    have hpfx : (filesPat public_url).isPrefixOf (text.drop s) = true :=
      strFind_isPrefixOf_drop _ text s hf
    obtain ⟨rest, hrest⟩ := exists_of_isPrefixOf hpfx
    have hall : ∀ c ∈ filesPat public_url, (fun c => !isMsgDelim c) c = true := by
      have h7 : ∀ c ∈ ("/files/".toList), isMsgDelim c = false := by decide
      intro c hc
      rw [filesPat] at hc
      rcases List.mem_append.mp hc with hc | hc
      · simp [hpu c hc]
      · simp [h7 c hc]
    have hurl : detectURL text s =
        filesPat public_url ++
          rstripPunct (rest.takeWhile (fun c => !isMsgDelim c)) := by
      rw [detectURL_eq_takeWhile, hrest, List.takeWhile_append_of_pos hall,
        rstripPunct_filesPat]
    have hfind : strFind
        (filesPat public_url ++ rstripPunct (rest.takeWhile (fun c => !isMsgDelim c)))
        (filesPat public_url) = some 0 :=
      strFind_of_isPrefixOf (isPrefixOf_append_self _ _)
    simp only [hurl, hfind, Option.isSome_some, if_true, List.drop_left, hrest,
      List.takeWhile_append_of_pos hall, rstripPunct_filesPat]

/-- Witness for the amended C7 at a concrete input. -/
theorem filehost_url_extraction_amended_witness :
    (∀ c ∈ "http://h".toList, isMsgDelim c = false) ∧
    detectedTag "http://h".toList "go http://h/files/x.png, bye".toList =
      amendedC7Detected "http://h".toList "go http://h/files/x.png, bye".toList :=
  ⟨by decide, filehost_url_extraction_amended _ _ (by decide)⟩
